import Mathlib

/-!
Verification of the tinyenv coercion-and-validation engine (src/index.ts).

The engine is shallowly embedded: JavaScript runtime values become the
inductive `JSValue`; host-runtime primitives used by the source
(`String(...)`, `Number(...)`, `JSON.parse`, `trim`, `split`, `toLowerCase`)
are modelled as executable Lean functions mirroring their ECMAScript
behaviour on the value space that can reach the engine; thrown errors become
`Except.error` carrying the error message.  JavaScript doubles are modelled
as exact rationals (plus the infinities, with NaN as `Option.none` from the
conversions that can produce it): no exercised input depends on
IEEE-754 rounding.
-/

namespace TinyEnv

/-- Model of a JavaScript number: an exact rational or one of the two
infinities.  NaN never appears as a stored value in the engine (conversions
that would produce it fail first), so conversions return `Option JSNum`,
with `none` standing for NaN. -/
inductive JSNum where
  | finite (q : ℚ)
  | inf
  | negInf
deriving DecidableEq

/-- Model of the JavaScript runtime values that can flow through
`parseAndValidate`: `undefined`, `null`, booleans, numbers, strings, arrays,
and plain objects as association lists in property-insertion order
(the `for...in` order for the non-index keys exercised here).  Functions and
symbols cannot reach any value path of the engine and are omitted. -/
inductive JSValue where
  | undefined
  | null
  | bool (b : Bool)
  | num (n : JSNum)
  | str (s : String)
  | arr (xs : List JSValue)
  | obj (fields : List (String × JSValue))

/-- Discriminator for the JavaScript strict comparison `=== undefined`. -/
def isUndefined : JSValue → Bool
  | .undefined => true
  | _ => false

/-- Discriminator for the JavaScript strict comparison `=== null`. -/
def isNull : JSValue → Bool
  | .null => true
  | _ => false

/-- JavaScript `typeof` on the modelled values (src/index.ts lines 120, 156,
243, 249). -/
def jsTypeof : JSValue → String
  | .undefined => "undefined"
  | .null => "object"
  | .bool _ => "boolean"
  | .num _ => "number"
  | .str _ => "string"
  | .arr _ => "object"
  | .obj _ => "object"

/-- Whitespace recognised by JavaScript `String.prototype.trim` (restricted
to the ASCII range; the Unicode space characters are never exercised). -/
def isJsWs (c : Char) : Bool :=
  c = ' ' || c = '\t' || c = '\n' || c = '\r' || c = '\x0b' || c = '\x0c'

def jsTrimChars (cs : List Char) : List Char :=
  ((cs.dropWhile isJsWs).reverse.dropWhile isJsWs).reverse

/-- JavaScript `String.prototype.trim`. -/
def jsTrim (s : String) : String := String.mk (jsTrimChars s.toList)

/-- JavaScript `String.prototype.toLowerCase` (ASCII letters; no exercised
input contains non-ASCII letters). -/
def jsToLower (s : String) : String := String.mk (s.toList.map Char.toLower)

def listStartsWith : List Char → List Char → Bool
  | _, [] => true
  | [], _ :: _ => false
  | c :: cs, d :: ds => c == d && listStartsWith cs ds

/-- Splitting scan for a non-empty separator: cut at every occurrence of
`sep`, keeping empty segments.  Fuel decreases once per consumed character,
so `length + 1` always suffices. -/
def jsSplitAux (sep : List Char) : Nat → List Char → List Char → List String
  | _, acc, [] => [String.mk acc.reverse]
  | 0, acc, rest => [String.mk (acc.reverse ++ rest)]
  | fuel + 1, acc, c :: cs =>
    if listStartsWith (c :: cs) sep then
      String.mk acc.reverse :: jsSplitAux sep fuel [] (List.drop sep.length (c :: cs))
    else jsSplitAux sep fuel (c :: acc) cs

/-- JavaScript `String.prototype.split` with a string separator: an empty
separator splits into single characters (and an empty string into no
pieces), otherwise the string is cut at every occurrence of the
separator. -/
def jsSplit (s sep : String) : List String :=
  if sep = "" then s.toList.map (fun c => String.mk [c])
  else jsSplitAux sep.toList (s.toList.length + 1) [] s.toList

/-- Decimal digits of the fractional part of `n / d` (with `n < d`) by long
division, up to `fuel` digits.  Used by `numToString`; every exercised
number has a short terminating expansion. -/
def fracDigits : Nat → Nat → Nat → List Char
  | _, _, 0 => []
  | n, d, fuel + 1 =>
    if n = 0 then []
    else Char.ofNat (48 + (n * 10) / d) :: fracDigits ((n * 10) % d) d fuel

/-- Model of JavaScript number-to-string: integers print exactly;
non-integral rationals print their exact decimal expansion (up to 50
fractional digits), which agrees with the engine's shortest-round-trip
output on every short decimal input exercised here.  Magnitudes at or above
1e21, which the engine prints in exponent form, are never exercised. -/
def numToString : JSNum → String
  | .inf => "Infinity"
  | .negInf => "-Infinity"
  | .finite q =>
    let sign := if q < 0 then "-" else ""
    let n := q.num.natAbs
    let d := q.den
    let intPart := toString (n / d)
    let frac := fracDigits (n % d) d 50
    sign ++ intPart ++ (if frac.isEmpty then "" else "." ++ String.mk frac)

mutual
/-- Model of JavaScript `String(value)` — the coercion used by the template
literals and explicit `String(...)` calls throughout src/index.ts:
primitives print their standard forms, arrays join their elements with ","
rendering `undefined` and `null` elements as "" (per `Array.prototype.join`),
and plain objects print "[object Object]". -/
def jsToString : JSValue → String
  | .undefined => "undefined"
  | .null => "null"
  | .bool b => if b then "true" else "false"
  | .num n => numToString n
  | .str s => s
  | .arr xs => String.intercalate "," (jsToStringList xs)
  | .obj _ => "[object Object]"

/-- Element rendering used by `Array.prototype.join`. -/
def jsToStringList : List JSValue → List String
  | [] => []
  | .undefined :: vs => "" :: jsToStringList vs
  | .null :: vs => "" :: jsToStringList vs
  | v :: vs => jsToString v :: jsToStringList vs
end

def isDigitChar (c : Char) : Bool := '0' ≤ c && c ≤ '9'

def digitsToNat (cs : List Char) : Nat :=
  cs.foldl (fun acc c => acc * 10 + (c.toNat - 48)) 0

/-- Value of one digit in the given radix (`none` when out of range). -/
def radixDigitVal (radix : Nat) (c : Char) : Option Nat :=
  let v :=
    if isDigitChar c then some (c.toNat - 48)
    else if 'a' ≤ c && c ≤ 'f' then some (c.toNat - 87)
    else if 'A' ≤ c && c ≤ 'F' then some (c.toNat - 55)
    else none
  match v with
  | some v => if v < radix then some v else none
  | none => none

/-- Digits of a non-decimal integer literal; `none` when empty or when any
character is out of range for the radix. -/
def radixToNat (radix : Nat) (cs : List Char) : Option Nat :=
  if cs.isEmpty then none
  else
    cs.foldl
      (fun acc c =>
        match acc, radixDigitVal radix c with
        | some a, some v => some (a * radix + v)
        | _, _ => none)
      (some 0)

/-- Optional exponent part of a decimal literal: the remaining characters
must be empty or a full `e`/`E` exponent. -/
def parseExponent (m : ℚ) (cs : List Char) : Option ℚ :=
  match cs with
  | [] => some m
  | c :: rest =>
    if c = 'e' || c = 'E' then
      let sd : ℤ × List Char :=
        match rest with
        | '+' :: t => (1, t)
        | '-' :: t => (-1, t)
        | _ => (1, rest)
      let digits := sd.2.takeWhile isDigitChar
      let after := sd.2.dropWhile isDigitChar
      if digits.isEmpty || !after.isEmpty then none
      else some (m * (10 : ℚ) ^ (sd.1 * (digitsToNat digits : ℤ)))
    else none

/-- The `StrUnsignedDecimalLiteral` production of the ECMAScript
string-to-number grammar (digits, optional decimal point, optional
exponent); the whole input must be consumed. -/
def parseUnsignedDecimal (cs : List Char) : Option ℚ :=
  let ip := cs.takeWhile isDigitChar
  let r1 := cs.dropWhile isDigitChar
  match r1 with
  | '.' :: r2 =>
    let fp := r2.takeWhile isDigitChar
    let r3 := r2.dropWhile isDigitChar
    if ip.isEmpty && fp.isEmpty then none
    else parseExponent ((digitsToNat (ip ++ fp) : ℚ) / (10 : ℚ) ^ fp.length) r3
  | _ => if ip.isEmpty then none else parseExponent (digitsToNat ip : ℚ) r1

def infinityChars : List Char := ['I', 'n', 'f', 'i', 'n', 'i', 't', 'y']

/-- Signed decimal literal or signed `Infinity`. -/
def parseSignedDecimal (cs : List Char) : Option JSNum :=
  let nb : Bool × List Char :=
    match cs with
    | '+' :: t => (false, t)
    | '-' :: t => (true, t)
    | _ => (false, cs)
  if nb.2 = infinityChars then some (if nb.1 then .negInf else .inf)
  else (parseUnsignedDecimal nb.2).map fun q => .finite (if nb.1 then -q else q)

/-- The ECMAScript `StringToNumber` operation — the behaviour of
`Number(string)`: whitespace-only strings are 0; optionally signed decimal
literals and `Infinity`; unsigned `0x`/`0o`/`0b` literals; anything else is
NaN (`none`).  Values beyond double range round to Infinity in the engine
but stay exact here; no exercised input is affected. -/
def strToNumber (s : String) : Option JSNum :=
  let cs := jsTrimChars s.toList
  match cs with
  | [] => some (.finite 0)
  | '0' :: c :: rest =>
    if c = 'x' || c = 'X' then (radixToNat 16 rest).map fun n => .finite (n : ℚ)
    else if c = 'o' || c = 'O' then (radixToNat 8 rest).map fun n => .finite (n : ℚ)
    else if c = 'b' || c = 'B' then (radixToNat 2 rest).map fun n => .finite (n : ℚ)
    else parseSignedDecimal cs
  | _ => parseSignedDecimal cs

/-- Model of JavaScript `Number(value)` on a general value (the `ToNumber`
coercion): arrays convert through their string form, plain objects yield
NaN via theirs. -/
def jsToNumber : JSValue → Option JSNum
  | .undefined => none
  | .null => some (.finite 0)
  | .bool b => some (.finite (if b then 1 else 0))
  | .num n => some n
  | .str s => strToNumber s
  | .arr xs => strToNumber (jsToString (.arr xs))
  | .obj _ => none

/-- Array index keys fabricated for `for...in` over an array, starting at
the given index. -/
def idxFields : Nat → List JSValue → List (String × JSValue)
  | _, [] => []
  | i, v :: vs => (toString i, v) :: idxFields (i + 1) vs

/-- Own enumerable string-keyed properties in `for...in` order: insertion
order for objects, index order for arrays, nothing for primitives
(mirroring `for...in` over non-objects, which iterates nothing). -/
def ownFields : JSValue → List (String × JSValue)
  | .obj fs => fs
  | .arr xs => idxFields 0 xs
  | _ => []

/-- JavaScript `prop in obj` on the values reaching the engine (the `length`
property of arrays and prototype properties are never consulted on any
exercised path). -/
def hasProp (v : JSValue) (p : String) : Bool := ((ownFields v).lookup p).isSome

/-- JavaScript property read `obj[prop]` (absent properties read as
`undefined`). -/
def getField (v : JSValue) (p : String) : JSValue :=
  ((ownFields v).lookup p).getD .undefined

/-! JSON parsing (the host-runtime `JSON.parse` the object branch relies on).
The value grammar is ECMA-404 exactly; the wording of syntax-error messages
is the model's own (the engine's wording is implementation-defined, and the
source only ever embeds the message whole into its own wrapper). -/

def isJsonWs (c : Char) : Bool := c = ' ' || c = '\t' || c = '\n' || c = '\r'

def skipWs (cs : List Char) : List Char := cs.dropWhile isJsonWs

/-- Insertion with the duplicate-key behaviour of `JSON.parse`: a repeated
property keeps its first position but takes the last value. -/
def setField (fs : List (String × JSValue)) (k : String) (v : JSValue) :
    List (String × JSValue) :=
  match fs with
  | [] => [(k, v)]
  | (k', v') :: rest =>
    if k' = k then (k', v) :: rest else (k', v') :: setField rest k v

/-- Body of a JSON string after the opening quote.  Fuel is decremented once
per consumed character group, so `length + 1` always suffices.  A lone
`\\uXXXX` surrogate (never exercised) degrades to the null character because
Lean characters are scalar values. -/
def jsonStringLoop : Nat → List Char → List Char → Except String (String × List Char)
  | 0, _, _ => .error "Unterminated string in JSON"
  | fuel + 1, acc, cs =>
    match cs with
    | [] => .error "Unterminated string in JSON"
    | '"' :: rest => .ok (String.mk acc.reverse, rest)
    | '\\' :: esc =>
      match esc with
      | '"' :: r => jsonStringLoop fuel ('"' :: acc) r
      | '\\' :: r => jsonStringLoop fuel ('\\' :: acc) r
      | '/' :: r => jsonStringLoop fuel ('/' :: acc) r
      | 'b' :: r => jsonStringLoop fuel ('\x08' :: acc) r
      | 'f' :: r => jsonStringLoop fuel ('\x0c' :: acc) r
      | 'n' :: r => jsonStringLoop fuel ('\n' :: acc) r
      | 'r' :: r => jsonStringLoop fuel ('\r' :: acc) r
      | 't' :: r => jsonStringLoop fuel ('\t' :: acc) r
      | 'u' :: h1 :: h2 :: h3 :: h4 :: r =>
        match radixDigitVal 16 h1, radixDigitVal 16 h2,
            radixDigitVal 16 h3, radixDigitVal 16 h4 with
        | some a, some b, some c, some d =>
          jsonStringLoop fuel (Char.ofNat (((a * 16 + b) * 16 + c) * 16 + d) :: acc) r
        | _, _, _, _ => .error "Bad Unicode escape in JSON"
      | _ => .error "Bad escaped character in JSON"
    | c :: rest =>
      if c.toNat < 32 then .error "Bad control character in JSON string"
      else jsonStringLoop fuel (c :: acc) rest

/-- Exponent-and-wrap-up step of a JSON number whose integer part `ip` and
fraction part `fp` have been read. -/
def jsonNumExp (neg : Bool) (ip fp : List Char) (cs : List Char) :
    Except String (JSValue × List Char) :=
  let base : ℚ := (digitsToNat (ip ++ fp) : ℚ) / (10 : ℚ) ^ fp.length
  let m : ℚ := if neg then -base else base
  match cs with
  | c :: rest =>
    if c = 'e' || c = 'E' then
      let sd : ℤ × List Char :=
        match rest with
        | '+' :: t => (1, t)
        | '-' :: t => (-1, t)
        | _ => (1, rest)
      let ds := sd.2.takeWhile isDigitChar
      let r3 := sd.2.dropWhile isDigitChar
      if ds.isEmpty then .error "Missing exponent digits in JSON"
      else .ok (.num (.finite (m * (10 : ℚ) ^ (sd.1 * (digitsToNat ds : ℤ)))), r3)
    else .ok (.num (.finite m), cs)
  | [] => .ok (.num (.finite m), [])

/-- A JSON number literal (ECMA-404: optional minus, no leading zeros,
optional fraction and exponent). -/
def parseJsonNumber (cs : List Char) : Except String (JSValue × List Char) :=
  let nb : Bool × List Char :=
    match cs with
    | '-' :: t => (true, t)
    | _ => (false, cs)
  let ip := nb.2.takeWhile isDigitChar
  let r1 := nb.2.dropWhile isDigitChar
  if ip.isEmpty then .error "No digits in JSON number"
  else if 1 < ip.length && ip.headD ' ' = '0' then
    .error "Leading zero in JSON number"
  else
    match r1 with
    | '.' :: r2 =>
      let fp := r2.takeWhile isDigitChar
      let r3 := r2.dropWhile isDigitChar
      if fp.isEmpty then .error "Missing digits after decimal point in JSON"
      else jsonNumExp nb.1 ip fp r3
    | _ => jsonNumExp nb.1 ip [] r1

def unexpTok (c : Char) : String := s!"Unexpected token {c} in JSON"

mutual
/-- One JSON value with leading whitespace, returning the unconsumed rest. -/
def parseJsonValue : Nat → List Char → Except String (JSValue × List Char)
  | 0, _ => .error "JSON input too deeply nested"
  | fuel + 1, cs =>
    match skipWs cs with
    | [] => .error "Unexpected end of JSON input"
    | 'n' :: 'u' :: 'l' :: 'l' :: rest => .ok (.null, rest)
    | 't' :: 'r' :: 'u' :: 'e' :: rest => .ok (.bool true, rest)
    | 'f' :: 'a' :: 'l' :: 's' :: 'e' :: rest => .ok (.bool false, rest)
    | '"' :: rest =>
      (jsonStringLoop (rest.length + 1) [] rest).map fun sr => (.str sr.1, sr.2)
    | '\x7b' :: rest =>
      match skipWs rest with
      | '\x7d' :: r2 => .ok (.obj [], r2)
      | r2 => parseJsonMembers fuel [] r2
    | '[' :: rest =>
      match skipWs rest with
      | ']' :: r2 => .ok (.arr [], r2)
      | r2 => parseJsonElements fuel [] r2
    | c :: rest =>
      if c = '-' || isDigitChar c then parseJsonNumber (c :: rest)
      else .error (unexpTok c)

/-- Members of a JSON object after the opening brace (first member next). -/
def parseJsonMembers : Nat → List (String × JSValue) → List Char →
    Except String (JSValue × List Char)
  | 0, _, _ => .error "JSON input too deeply nested"
  | fuel + 1, acc, cs =>
    match skipWs cs with
    | '"' :: rest =>
      match jsonStringLoop (rest.length + 1) [] rest with
      | .error e => .error e
      | .ok (k, r2) =>
        match skipWs r2 with
        | ':' :: r3 =>
          match parseJsonValue fuel r3 with
          | .error e => .error e
          | .ok (v, r4) =>
            match skipWs r4 with
            | ',' :: r5 => parseJsonMembers fuel (setField acc k v) r5
            | '\x7d' :: r5 => .ok (.obj (setField acc k v), r5)
            | _ => .error "Expected comma or closing brace in JSON object"
        | _ => .error "Expected colon in JSON object"
    | _ => .error "Expected property name in JSON object"

/-- Elements of a JSON array after the opening bracket (first element next). -/
def parseJsonElements : Nat → List JSValue → List Char →
    Except String (JSValue × List Char)
  | 0, _, _ => .error "JSON input too deeply nested"
  | fuel + 1, acc, cs =>
    match parseJsonValue fuel cs with
    | .error e => .error e
    | .ok (v, r1) =>
      match skipWs r1 with
      | ',' :: r2 => parseJsonElements fuel (acc ++ [v]) r2
      | ']' :: r2 => .ok (.arr (acc ++ [v]), r2)
      | _ => .error "Expected comma or closing bracket in JSON array"
end

/-- Model of JavaScript `JSON.parse`.  The fuel bound exceeds any possible
nesting of the input, so it is never exhausted. -/
def jsonParse (s : String) : Except String JSValue :=
  let cs := s.toList
  match parseJsonValue (2 * cs.length + 8) cs with
  | .error e => .error e
  | .ok (v, rest) =>
    if (skipWs rest).isEmpty then .ok v
    else .error "Unexpected non-whitespace character after JSON data"

mutual
/-- Size measure used only to justify termination of the recursive shape
validation below. -/
def jsSize : JSValue → Nat
  | .arr xs => 1 + jsSizeList xs
  | .obj fs => 1 + jsSizeFields fs
  | _ => 1

def jsSizeList : List JSValue → Nat
  | [] => 0
  | v :: vs => jsSize v + jsSizeList vs

def jsSizeFields : List (String × JSValue) → Nat
  | [] => 0
  | f :: fs => jsSize f.2 + jsSizeFields fs
end

/-- Dotted-path rendering `${key}${path.length > 0 ? '.' + path.join('.') : ''}`
used by the shape-validation error messages (src/index.ts lines 245, 257). -/
def pathStr (key : String) (path : List String) : String :=
  key ++ (if 0 < path.length then "." ++ String.intercalate "." path else "")

mutual
/-- Model of `validateObjectShape` (src/index.ts lines 237-268): first the
`typeof` tags are compared; then, when the checked value is a non-null
object, the default's own properties are walked in order — a property absent
from the value fails (only) when its default is not `undefined`, a present
property is recursed into with the extended path.  A thrown error becomes
`Except.error` carrying the `Error.message`. -/
def validateObjectShape (value defaultValue : JSValue) (key : String)
    (path : List String) : Except String Unit :=
  if jsTypeof value ≠ jsTypeof defaultValue then
    let p := pathStr key path
    let exp := jsTypeof defaultValue
    let got := jsTypeof value
    .error s!"Invalid type for {p}: expected {exp}, got {got}"
  else if jsTypeof value = "object" ∧ isNull value = false then
    validateShapeFields (ownFields defaultValue) value key path
  else .ok ()
termination_by 2 * jsSize defaultValue
decreasing_by
  have hidx : ∀ (xs : List JSValue) (i : Nat),
      jsSizeFields (idxFields i xs) = jsSizeList xs := by
    intro xs
    induction xs with
    | nil => intro _; simp [idxFields, jsSizeFields, jsSizeList]
    | cons v vs ih => intro i; simp [idxFields, jsSizeFields, jsSizeList, ih]
  have h : jsSizeFields (ownFields defaultValue) < jsSize defaultValue := by
    cases defaultValue <;> simp [ownFields, jsSize, jsSizeFields, hidx]
  omega

/-- The `for (const prop in defaultObj)` loop of `validateObjectShape`. -/
def validateShapeFields (dfs : List (String × JSValue)) (valueObj : JSValue)
    (key : String) (path : List String) : Except String Unit :=
  match dfs with
  | [] => .ok ()
  | (prop, dv) :: rest =>
    if hasProp valueObj prop = false ∧ isUndefined dv = false then
      let p := pathStr key path
      .error s!"Missing required property {p}.{prop}"
    else if hasProp valueObj prop then
      match validateObjectShape (getField valueObj prop) dv key (path ++ [prop]) with
      | .error e => .error e
      | .ok _ => validateShapeFields rest valueObj key path
    else validateShapeFields rest valueObj key path
termination_by 2 * jsSizeFields dfs + 1
decreasing_by
  all_goals
    have hpos : 1 ≤ jsSize v' := by cases v' <;> simp [jsSize]
    simp [jsSizeFields]
    omega
end

/-! The coercion engine itself (class `TinyEnvSchema`, src/index.ts). -/

/-- The `ArrayType` union `'string' | 'number' | 'boolean'` (src/index.ts
line 4). -/
inductive ArrayType where
  | string
  | number
  | boolean
deriving DecidableEq

/-- The string tag an `ArrayType` hint passes to `convertToType`. -/
def ArrayType.tag : ArrayType → String
  | .string => "string"
  | .number => "number"
  | .boolean => "boolean"

/-- A value thrown by a user-supplied validator: either an `Error` instance
(carrying its message) or any other thrown value. -/
inductive Thrown where
  | err (msg : String)
  | other (value : JSValue)

/-- The `Options` bundle (src/index.ts lines 13-21).  A wholly absent
options object is represented by all fields `none`, which the source treats
identically through optional chaining.  The validator returns
`Except Thrown Unit`, whose `error` case models a throw. -/
structure Options where
  defaults : Option (List (String × JSValue)) := none
  validator : Option (String → JSValue → Except Thrown Unit) := none
  delimiter : Option String := none
  arrayTypes : Option (List (String × ArrayType)) := none

/-- The read `this.options?.defaults?.[key]` (src/index.ts line 97); an
absent key reads as `undefined`. -/
def getDefault (defaults : Option (List (String × JSValue))) (key : String) :
    JSValue :=
  ((defaults.getD []).lookup key).getD .undefined

/-- The test `key in (this.options?.defaults ?? {})` (src/index.ts
line 101). -/
def keyInDefaults (defaults : Option (List (String × JSValue))) (key : String) :
    Bool :=
  ((defaults.getD []).lookup key).isSome

/-- The test `typeof rawValue === 'string' && rawValue.trim() === ''`
(src/index.ts line 96). -/
def isEmptyValue : JSValue → Bool
  | .str s => jsTrim s == ""
  | _ => false

/-- Model of `convertToType` (src/index.ts lines 204-234): scalar conversion
of one array element, dispatching on a type tag; tags other than `number`
and `boolean` leave the element as a string. -/
def convertToType (value : String) (type : String) (key : String) :
    Except String JSValue :=
  if type = "number" then
    match strToNumber value with
    | none => .error s!"Failed to parse {key} array element as number: {value}"
    | some n => .ok (.num n)
  else if type = "boolean" then
    let str := jsToLower value
    if ["true", "1", "yes"].contains str then .ok (.bool true)
    else if ["false", "0", "no"].contains str then .ok (.bool false)
    else .error s!"Failed to parse {key} array element as boolean: {value}"
  else .ok (.str value)

/-- The type-dispatch step of the per-key loop (src/index.ts lines 114-183):
computes `parsedValue` from the selected `value`, branching on the runtime
type of `defaultValue`.  The object branch runs `JSON.parse` and the shape
validation inside one `try`, so errors from either emerge wrapped in the
`Failed to parse {key} as JSON:` message. -/
def convertValue (delimiter : String) (arrayType : Option ArrayType)
    (key : String) (defaultValue value : JSValue) : Except String JSValue :=
  if isUndefined defaultValue then .ok (.str (jsToString value))
  else
    match jsTypeof defaultValue with
    | "number" =>
      match jsToNumber value with
      | none =>
        let vs := jsToString value
        .error s!"Failed to parse {key} as number: {vs}"
      | some n => .ok (.num n)
    | "boolean" =>
      let str := jsToLower (jsToString value)
      if ["true", "1", "yes"].contains str then .ok (.bool true)
      else if ["false", "0", "no"].contains str then .ok (.bool false)
      else
        let vs := jsToString value
        .error s!"Failed to parse {key} as boolean: {vs}"
    | "object" =>
      match defaultValue with
      | .arr ds =>
        let elements :=
          ((jsSplit (jsToString value) delimiter).map jsTrim).filter (· ≠ "")
        match arrayType with
        | some t => (elements.mapM fun el => convertToType el t.tag key).map .arr
        | none =>
          if 0 < ds.length then
            let elementType := jsTypeof (ds.headD .undefined)
            (elements.mapM fun el => convertToType el elementType key).map .arr
          else .ok (.arr (elements.map .str))
      | _ =>
        match jsonParse (jsToString value) with
        | .error e => .error s!"Failed to parse {key} as JSON: {e}"
        | .ok parsed =>
          match validateObjectShape parsed defaultValue key [] with
          | .error e => .error s!"Failed to parse {key} as JSON: {e}"
          | .ok _ => .ok parsed
    | _ => .ok (.str (jsToString value))

/-- The optional-validator step (src/index.ts lines 186-195), returning the
key's outcome together with the validator invocations made as
`(key, convertedValue)` pairs: a thrown `Error` is rethrown as-is, any other
thrown value is wrapped in the generic message. -/
def runValidator (validator : Option (String → JSValue → Except Thrown Unit))
    (key : String) (parsedValue : JSValue) :
    Except String JSValue × List (String × JSValue) :=
  match validator with
  | none => (.ok parsedValue, [])
  | some f =>
    match f key parsedValue with
    | .ok _ => (.ok parsedValue, [(key, parsedValue)])
    | .error (.err msg) => (.error msg, [(key, parsedValue)])
    | .error (.other w) =>
      let ws := jsToString w
      (.error s!"Validation failed for {key}: {ws}", [(key, parsedValue)])

/-- One iteration of the per-key loop of `parseAndValidate` (src/index.ts
lines 94-197): the invalid-default check, the missing-variable check, value
selection, type dispatch, and the optional validator, paired with the list
of validator invocations made. -/
def processKey (opts : Options) (envVars : JSValue) (key : String) :
    Except String JSValue × List (String × JSValue) :=
  let rawValue := getField envVars key
  let isEmpty := isEmptyValue rawValue
  let defaultValue := getDefault opts.defaults key
  let arrayType := (opts.arrayTypes.getD []).lookup key
  if isUndefined defaultValue = true ∧ keyInDefaults opts.defaults key = true then
    (.error s!"Invalid default value for key {key}: undefined is not allowed", [])
  else if (isUndefined rawValue = true ∨ isEmpty = true) ∧ isUndefined defaultValue = true then
    (.error s!"Missing environment variable: {key}", [])
  else
    let value := if isEmpty = true ∨ isUndefined rawValue = true then defaultValue else rawValue
    match convertValue (opts.delimiter.getD ",") arrayType key defaultValue value with
    | .error e => (.error e, [])
    | .ok parsedValue => runValidator opts.validator key parsedValue

/-- The `for (const key of this.keys)` loop (src/index.ts lines 94-197):
keys are processed in declaration order, the first failure aborts the loop,
and on success the record accumulates `(key, parsedValue)` entries in order.
The accompanying list collects all validator invocations.  The final
`Object.freeze` only makes the returned record immutable, which the value
model reflects trivially. -/
def runKeys (opts : Options) (envVars : JSValue) :
    List String → Except String (List (String × JSValue)) × List (String × JSValue)
  | [] => (.ok [], [])
  | key :: rest =>
    match processKey opts envVars key with
    | (.error e, log) => (.error e, log)
    | (.ok v, log) =>
      match runKeys opts envVars rest with
      | (.error e, log2) => (.error e, log ++ log2)
      | (.ok r, log2) => (.ok ((key, v) :: r), log ++ log2)

/-- Model of `parseAndValidate` (src/index.ts lines 78-200) instrumented
with the list of validator invocations: the input must be a non-null
object, then every declared key is resolved in order. -/
def parseAndValidateWithLog (keys : List String) (opts : Options)
    (value : JSValue) :
    Except String (List (String × JSValue)) × List (String × JSValue) :=
  if jsTypeof value ≠ "object" ∨ isNull value = true then
    (.error "Input must be an object", [])
  else runKeys opts value keys

/-- Model of `parseAndValidate` (src/index.ts lines 78-200): the frozen
record on success, the first thrown error's message on failure. -/
def parseAndValidate (keys : List String) (opts : Options) (value : JSValue) :
    Except String (List (String × JSValue)) :=
  (parseAndValidateWithLog keys opts value).1

/-- Model of the standard-schema adapter `~standard.validate` (src/index.ts
lines 49-62): a success payload, or a single-element issues list carrying
the caught error's message. -/
def standardValidate (keys : List String) (opts : Options) (value : JSValue) :
    Except (List String) (List (String × JSValue)) :=
  match parseAndValidate keys opts value with
  | .ok r => .ok r
  | .error e => .error [e]

/-- One pass of the shape-check loop succeeds for property `q` with default
`qv`: either the property exists in the checked value and the recursive
check succeeds, or it is absent but its default is `undefined` (which the
loop skips). -/
def fieldOk (v : JSValue) (key : String) (path : List String) (q : String)
    (qv : JSValue) : Prop :=
  if hasProp v q then validateObjectShape (getField v q) qv key (path ++ [q]) = .ok ()
  else qv = JSValue.undefined

/-- The syntax error produced by parsing the string form of a plain object,
`"[object Object]"`, as JSON. -/
def objectFormJsonError : String := "Unexpected token o in JSON"

/-! Theorems about the engine. -/

/-- Characterisation of the `undefined` discriminator. -/
theorem isUndefined_eq_true_iff (v : JSValue) : isUndefined v = true ↔ v = JSValue.undefined := by
  cases v <;> simp [isUndefined]

/-- Characterisation of the `null` discriminator. -/
theorem isNull_eq_true_iff (v : JSValue) : isNull v = true ↔ v = JSValue.null := by
  cases v <;> simp [isNull]

theorem isUndefined_on_undefined : isUndefined JSValue.undefined = true := rfl

theorem isEmptyValue_undefined : isEmptyValue JSValue.undefined = false := rfl

/-- C3: a key that is present in the defaults mapping with the value
`undefined` makes validation fail with exactly the message
`Invalid default value for key {KEY}: undefined is not allowed`, whatever raw
value the input map holds for it.  The failure happens before presence
resolution, parsing and custom validation for that key: no validator
invocation is logged, and the error does not depend on the raw value at
all. -/
theorem c3_invalid_default_first (opts : Options) (envVars : JSValue)
    (key : String) (ds : List (String × JSValue))
    (hd : opts.defaults = some ds) (hk : ds.lookup key = some JSValue.undefined) :
    processKey opts envVars key =
      (.error s!"Invalid default value for key {key}: undefined is not allowed", []) ∧
    (jsTypeof envVars = "object" → isNull envVars = false →
      parseAndValidate [key] opts envVars =
        .error s!"Invalid default value for key {key}: undefined is not allowed") := by
  have h1 : processKey opts envVars key =
      (.error s!"Invalid default value for key {key}: undefined is not allowed", []) := by
    simp [processKey, getDefault, keyInDefaults, hd, hk, isUndefined]
  refine ⟨h1, fun henv hnull => ?_⟩
  unfold parseAndValidate parseAndValidateWithLog
  rw [if_neg (by simp [henv, hnull])]
  simp [runKeys, h1]

/-- Instantiation of C3: the defaults map `{X: undefined}` is rejected with
the exact message even though the input supplies a usable value for `X`. -/
theorem c3_witness :
    processKey { defaults := some [("X", JSValue.undefined)] }
        (JSValue.obj [("X", JSValue.str "value")]) "X" =
      (.error "Invalid default value for key X: undefined is not allowed", []) ∧
    parseAndValidate ["X"] { defaults := some [("X", JSValue.undefined)] }
        (JSValue.obj [("X", JSValue.str "value")]) =
      .error "Invalid default value for key X: undefined is not allowed" := by
  have h := c3_invalid_default_first { defaults := some [("X", JSValue.undefined)] }
    (JSValue.obj [("X", JSValue.str "value")]) "X" [("X", JSValue.undefined)] rfl rfl
  exact ⟨h.1, h.2 rfl rfl⟩

/-- C4: a raw value that is absent or a whitespace-only string is treated as
absent — without a declared default the key fails with exactly
`Missing environment variable: {KEY}`, and with a declared (non-undefined)
default the default becomes the selected value handed to type conversion
(and then to the optional validator). -/
theorem c4_blank_treated_as_absent (opts : Options) (envVars : JSValue)
    (key : String)
    (hraw : isUndefined (getField envVars key) = true ∨
      isEmptyValue (getField envVars key) = true) :
    (keyInDefaults opts.defaults key = false →
      processKey opts envVars key =
        (.error s!"Missing environment variable: {key}", [])) ∧
    (∀ d, getDefault opts.defaults key = d → isUndefined d = false →
      processKey opts envVars key =
        match convertValue (opts.delimiter.getD ",")
            ((opts.arrayTypes.getD []).lookup key) key d d with
        | .error e => (.error e, [])
        | .ok parsedValue => runValidator opts.validator key parsedValue) := by
  constructor
  · intro hnd
    have hdef : getDefault opts.defaults key = JSValue.undefined := by
      unfold keyInDefaults at hnd
      unfold getDefault
      rcases h : (opts.defaults.getD []).lookup key with _ | w
      · rfl
      · rw [h] at hnd; simp at hnd
    rcases hraw with h | h
    · have hg := (isUndefined_eq_true_iff _).mp h
      simp [processKey, hdef, hnd, hg, isUndefined_on_undefined, isEmptyValue_undefined]
    · simp [processKey, hdef, hnd, h, isUndefined_on_undefined]
  · intro d hd hnu
    rcases hraw with h | h
    · have hg := (isUndefined_eq_true_iff _).mp h
      simp [processKey, hd, hnu, hg, isUndefined_on_undefined, isEmptyValue_undefined]
    · simp [processKey, hd, hnu, h, isUndefined_on_undefined]

/-- Instantiation of C4: a whitespace-only `NAME` falls back to the declared
default, and an absent key without a default fails with the exact message. -/
theorem c4_witness :
    processKey { defaults := some [("NAME", JSValue.str "default")] }
        (JSValue.obj [("NAME", JSValue.str "   ")]) "NAME" =
      (.ok (JSValue.str "default"), []) ∧
    processKey ({} : Options) (JSValue.obj []) "MISSING_VAR" =
      (.error "Missing environment variable: MISSING_VAR", []) := by
  constructor
  · have h := (c4_blank_treated_as_absent
        { defaults := some [("NAME", JSValue.str "default")] }
        (JSValue.obj [("NAME", JSValue.str "   ")]) "NAME"
        (Or.inr rfl)).2 (JSValue.str "default") rfl rfl
    exact h.trans rfl
  · exact (c4_blank_treated_as_absent ({} : Options) (JSValue.obj [])
      "MISSING_VAR" (Or.inl rfl)).1 rfl

/-- C6: with a boolean default, the selected value's string form is
lower-cased and mapped — `true`/`1`/`yes` to `true`, `false`/`0`/`no` to
`false` — and any other string fails with exactly
`Failed to parse {KEY} as boolean: {value}`. -/
theorem c6_boolean_conversion (delimiter : String) (arrayType : Option ArrayType)
    (key : String) (b : Bool) (value : JSValue) :
    (["true", "1", "yes"].contains (jsToLower (jsToString value)) = true →
      convertValue delimiter arrayType key (.bool b) value = .ok (.bool true)) ∧
    (["false", "0", "no"].contains (jsToLower (jsToString value)) = true →
      convertValue delimiter arrayType key (.bool b) value = .ok (.bool false)) ∧
    (["true", "1", "yes"].contains (jsToLower (jsToString value)) = false →
      ["false", "0", "no"].contains (jsToLower (jsToString value)) = false →
      convertValue delimiter arrayType key (.bool b) value =
        .error s!"Failed to parse {key} as boolean: {jsToString value}") := by
  refine ⟨fun h1 => ?_, fun h2 => ?_, fun h1 h2 => ?_⟩
  · have h1' : jsToLower (jsToString value) = "true" ∨
        jsToLower (jsToString value) = "1" ∨
        jsToLower (jsToString value) = "yes" := by simpa using h1
    rcases h1' with h | h | h <;> simp [convertValue, jsTypeof, isUndefined, h]
  · have h2' : jsToLower (jsToString value) = "false" ∨
        jsToLower (jsToString value) = "0" ∨
        jsToLower (jsToString value) = "no" := by simpa using h2
    rcases h2' with h | h | h <;> simp [convertValue, jsTypeof, isUndefined, h]
  · have h1' : ¬(jsToLower (jsToString value) = "true" ∨
        jsToLower (jsToString value) = "1" ∨
        jsToLower (jsToString value) = "yes") := by simpa using h1
    have h2' : ¬(jsToLower (jsToString value) = "false" ∨
        jsToLower (jsToString value) = "0" ∨
        jsToLower (jsToString value) = "no") := by simpa using h2
    push_neg at h1' h2'
    simp [convertValue, jsTypeof, isUndefined, h1'.1, h1'.2.1, h1'.2.2,
      h2'.1, h2'.2.1, h2'.2.2]

/-- Instantiation of C6: `FLAG="TRUE"` parses to `true` against a boolean
default and `FLAG="invalid"` fails with the exact message. -/
theorem c6_witness :
    convertValue "," none "FLAG" (JSValue.bool false) (JSValue.str "TRUE") =
      .ok (JSValue.bool true) ∧
    convertValue "," none "FLAG" (JSValue.bool false) (JSValue.str "invalid") =
      .error "Failed to parse FLAG as boolean: invalid" := by
  constructor
  · exact (c6_boolean_conversion "," none "FLAG" false (JSValue.str "TRUE")).1 (by rfl)
  · exact ((c6_boolean_conversion "," none "FLAG" false
      (JSValue.str "invalid")).2.2 (by rfl) (by rfl)).trans rfl

/-- C10: any input value that is not a non-null object is rejected by the
schema adapter with an issues list holding exactly one entry, whose message
is `Input must be an object`; no result record is produced. -/
theorem c10_nonobject_input (keys : List String) (opts : Options) (v : JSValue)
    (h : jsTypeof v ≠ "object" ∨ isNull v = true) :
    standardValidate keys opts v = .error ["Input must be an object"] := by
  unfold standardValidate parseAndValidate parseAndValidateWithLog
  rw [if_pos h]

/-- Instantiation of C10: a plain string input yields exactly the one-issue
failure, as do `null` and `undefined`. -/
theorem c10_witness :
    standardValidate ["PORT"] ({} : Options) (JSValue.str "hello") =
      .error ["Input must be an object"] ∧
    standardValidate [] ({} : Options) JSValue.null =
      .error ["Input must be an object"] ∧
    standardValidate [] ({} : Options) JSValue.undefined =
      .error ["Input must be an object"] := by
  refine ⟨?_, ?_, ?_⟩
  · exact c10_nonobject_input ["PORT"] ({} : Options) (JSValue.str "hello")
      (Or.inl (by simp [jsTypeof]))
  · exact c10_nonobject_input [] ({} : Options) JSValue.null (Or.inr rfl)
  · exact c10_nonobject_input [] ({} : Options) JSValue.undefined
      (Or.inl (by simp [jsTypeof]))

/-- C5: with an array default, the selected value's string form is split on
the configured delimiter, each piece is trimmed, pieces that become empty
are dropped, and the remaining elements are converted with the explicitly
declared array-element type when present, else the runtime type of the
default array's first element when the default array is non-empty, else
left as strings; a failing element conversion names the key and the
offending element. -/
theorem c5_array_conversion (delimiter : String) (key : String)
    (ds : List JSValue) (value : JSValue) :
    (∀ t : ArrayType,
      convertValue delimiter (some t) key (.arr ds) value =
        ((((jsSplit (jsToString value) delimiter).map jsTrim).filter
            (· ≠ "")).mapM (fun el => convertToType el t.tag key)).map JSValue.arr) ∧
    (ds ≠ [] →
      convertValue delimiter none key (.arr ds) value =
        ((((jsSplit (jsToString value) delimiter).map jsTrim).filter
            (· ≠ "")).mapM
          (fun el => convertToType el (jsTypeof (ds.headD .undefined)) key)).map JSValue.arr) ∧
    (convertValue delimiter none key (.arr []) value =
      .ok (.arr ((((jsSplit (jsToString value) delimiter).map jsTrim).filter
        (· ≠ "")).map JSValue.str))) ∧
    (∀ el, strToNumber el = none →
      convertToType el "number" key =
        .error s!"Failed to parse {key} array element as number: {el}") ∧
    (∀ el, ["true", "1", "yes"].contains (jsToLower el) = false →
      ["false", "0", "no"].contains (jsToLower el) = false →
      convertToType el "boolean" key =
        .error s!"Failed to parse {key} array element as boolean: {el}") := by
  refine ⟨fun t => ?_, fun hne => ?_, ?_, fun el h => ?_, fun el h1 h2 => ?_⟩
  · simp [convertValue, jsTypeof, isUndefined]
  · simp [convertValue, jsTypeof, isUndefined, List.length_pos.mpr hne]
  · simp [convertValue, jsTypeof, isUndefined]
  · simp [convertToType, h]
  · have h1' : ¬(jsToLower el = "true" ∨ jsToLower el = "1" ∨
        jsToLower el = "yes") := by simpa using h1
    have h2' : ¬(jsToLower el = "false" ∨ jsToLower el = "0" ∨
        jsToLower el = "no") := by simpa using h2
    push_neg at h1' h2'
    simp [convertToType, h1'.1, h1'.2.1, h1'.2.2, h2'.1, h2'.2.1, h2'.2.2]

/-- Instantiation of C5: the spec's array round-trip (input `"a, b ,c"`,
empty string-array default, delimiter `,`) and a failing number element
with its exact message. -/
theorem c5_witness :
    convertValue "," none "HOSTS" (JSValue.arr []) (JSValue.str "a, b ,c") =
      .ok (JSValue.arr [JSValue.str "a", JSValue.str "b", JSValue.str "c"]) ∧
    convertToType "not-a-number" "number" "NUMS" =
      .error "Failed to parse NUMS array element as number: not-a-number" := by
  constructor
  · exact ((c5_array_conversion "," "HOSTS" [] (JSValue.str "a, b ,c")).2.2.1).trans rfl
  · exact ((c5_array_conversion "," "NUMS" [] (JSValue.str "")).2.2.2.1
      "not-a-number" rfl).trans rfl

/-- C9: when the default for a key is a plain (non-array, non-null) object
and the raw input value is absent or whitespace-only, the selected value is
the default object itself, whose string form `"[object Object]"` is handed
to `JSON.parse`; the parse necessarily fails, so the key always fails with
a message beginning `Failed to parse {KEY} as JSON:` and the object default
never serves as a usable fallback value. -/
theorem c9_object_default_unusable (opts : Options) (env : JSValue)
    (key : String) (fs : List (String × JSValue))
    (hd : getDefault opts.defaults key = JSValue.obj fs)
    (hraw : isUndefined (getField env key) = true ∨
      isEmptyValue (getField env key) = true) :
    processKey opts env key =
      (.error s!"Failed to parse {key} as JSON: {objectFormJsonError}", []) ∧
    (jsTypeof env = "object" → isNull env = false →
      parseAndValidate [key] opts env =
        .error s!"Failed to parse {key} as JSON: {objectFormJsonError}") := by
  have hjson : jsonParse "[object Object]" = .error objectFormJsonError := rfl
  have h1 : processKey opts env key =
      (.error s!"Failed to parse {key} as JSON: {objectFormJsonError}", []) := by
    rcases hraw with h | h
    · have hg := (isUndefined_eq_true_iff _).mp h
      simp [processKey, hd, hg, isUndefined_on_undefined, isEmptyValue_undefined, isUndefined,
        convertValue, jsTypeof, jsToString, hjson]
    · simp [processKey, hd, h, isUndefined, convertValue, jsTypeof, jsToString, hjson]
  refine ⟨h1, fun henv hnull => ?_⟩
  unfold parseAndValidate parseAndValidateWithLog
  rw [if_neg (by simp [henv, hnull])]
  simp [runKeys, h1]

/-- Instantiation of C9: an absent `CONFIG` with an object default fails
with the JSON-parse message, without invoking any validator. -/
theorem c9_witness :
    processKey { defaults := some [("CONFIG", JSValue.obj [])] }
        (JSValue.obj []) "CONFIG" =
      (.error "Failed to parse CONFIG as JSON: Unexpected token o in JSON", []) ∧
    parseAndValidate ["CONFIG"] { defaults := some [("CONFIG", JSValue.obj [])] }
        (JSValue.obj []) =
      .error "Failed to parse CONFIG as JSON: Unexpected token o in JSON" := by
  have h := c9_object_default_unusable
    { defaults := some [("CONFIG", JSValue.obj [])] } (JSValue.obj []) "CONFIG" []
    rfl (Or.inl rfl)
  exact ⟨h.1.trans rfl, (h.2 rfl rfl).trans rfl⟩

/-- C1 (evaluation at the failing input): at the spec's own example — default
`{CONFIG: {db: {host: "", port: 0}}}` and input
`CONFIG='{"db":{"host":"localhost"}}'` — the engine throws
`Failed to parse CONFIG as JSON: Missing required property CONFIG.db.port`,
not the bare `Missing required property CONFIG.db.port` that the spec and
the repository's README document: `validateObjectShape` runs inside the
`try` block of the JSON branch (src/index.ts lines 166-175), so its errors
are re-wrapped in the JSON-parse message.  The analogous type-mismatch input
is wrapped the same way. -/
theorem c1_shape_error_is_wrapped :
    parseAndValidate ["CONFIG"]
      { defaults := some [("CONFIG", JSValue.obj [("db", JSValue.obj
          [("host", JSValue.str ""), ("port", JSValue.num (JSNum.finite 0))])])] }
      (JSValue.obj [("CONFIG",
        JSValue.str "\x7b\"db\":\x7b\"host\":\"localhost\"\x7d\x7d")]) =
      .error "Failed to parse CONFIG as JSON: Missing required property CONFIG.db.port" ∧
    parseAndValidate ["CONFIG"]
      { defaults := some [("CONFIG", JSValue.obj [("db", JSValue.obj
          [("host", JSValue.str ""), ("port", JSValue.num (JSNum.finite 0))])])] }
      (JSValue.obj [("CONFIG",
        JSValue.str "\x7b\"db\":\x7b\"host\":\"localhost\",\"port\":\"5432\"\x7d\x7d")]) =
      .error "Failed to parse CONFIG as JSON: Invalid type for CONFIG.db.port: expected number, got string" := by
  constructor
  · have hj : jsonParse "\x7b\"db\":\x7b\"host\":\"localhost\"\x7d\x7d" =
        .ok (JSValue.obj [("db", JSValue.obj [("host", JSValue.str "localhost")])]) := rfl
    have hv : validateObjectShape
        (JSValue.obj [("db", JSValue.obj [("host", JSValue.str "localhost")])])
        (JSValue.obj [("db", JSValue.obj
          [("host", JSValue.str ""), ("port", JSValue.num (JSNum.finite 0))])])
        "CONFIG" [] = .error "Missing required property CONFIG.db.port" := by
      simp [validateObjectShape, validateShapeFields, ownFields, hasProp,
        getField, jsTypeof, isNull, isUndefined, pathStr]
      rfl
    simp [parseAndValidate, parseAndValidateWithLog, runKeys, processKey,
      convertValue, getDefault, keyInDefaults, isEmptyValue, isUndefined, jsTypeof,
      jsTrim, jsTrimChars, isJsWs, getField, ownFields, jsToString, isNull, hj, hv]
    rfl
  · have hj : jsonParse "\x7b\"db\":\x7b\"host\":\"localhost\",\"port\":\"5432\"\x7d\x7d" =
        .ok (JSValue.obj [("db", JSValue.obj
          [("host", JSValue.str "localhost"), ("port", JSValue.str "5432")])]) := rfl
    have hv : validateObjectShape
        (JSValue.obj [("db", JSValue.obj
          [("host", JSValue.str "localhost"), ("port", JSValue.str "5432")])])
        (JSValue.obj [("db", JSValue.obj
          [("host", JSValue.str ""), ("port", JSValue.num (JSNum.finite 0))])])
        "CONFIG" [] =
        .error "Invalid type for CONFIG.db.port: expected number, got string" := by
      simp [validateObjectShape, validateShapeFields, ownFields, hasProp,
        getField, jsTypeof, isNull, isUndefined, pathStr]
      rfl
    simp [parseAndValidate, parseAndValidateWithLog, runKeys, processKey,
      convertValue, getDefault, keyInDefaults, isEmptyValue, isUndefined, jsTypeof,
      jsTrim, jsTrimChars, isJsWs, getField, ownFields, jsToString, isNull, hj, hv]
    rfl

/-- Helper for C7: the loop's result on a key list whose prefix keys all
succeed and whose next key fails is that key's error, whatever follows. -/
theorem runKeys_error_of_prefix_ok (opts : Options) (env : JSValue)
    (key : String) (post : List String) (e : String)
    (loge : List (String × JSValue))
    (hkey : processKey opts env key = (.error e, loge)) :
    ∀ pre : List String,
      (∀ k ∈ pre, ∃ v log, processKey opts env k = (.ok v, log)) →
      (runKeys opts env (pre ++ key :: post)).1 = .error e := by
  intro pre
  induction pre with
  | nil =>
    intro _
    simp [runKeys, hkey]
  | cons k pre ih =>
    intro h
    obtain ⟨v, log, hk⟩ := h k (List.mem_cons_self k pre)
    have hrest := ih fun k' hk' => h k' (List.mem_cons_of_mem k hk')
    rcases hr : runKeys opts env (pre ++ key :: post) with ⟨res, log2⟩
    rw [hr] at hrest
    simp only at hrest
    subst hrest
    simp [runKeys, hk, hr]

/-- C7: keys are processed in declaration order and the first failing key's
error is the whole run's outcome: if every key declared before `key`
succeeds and `key` fails with error `e`, then `parseAndValidate` fails with
exactly `e`, whatever keys are declared after `key`.  In the `Except` model
a failing run carries no record at all, so no partial result is
observable. -/
theorem c7_first_failure_wins (opts : Options) (env : JSValue)
    (pre : List String) (key : String) (post : List String) (e : String)
    (loge : List (String × JSValue))
    (henv : jsTypeof env = "object") (hnull : isNull env = false)
    (hpre : ∀ k ∈ pre, ∃ v log, processKey opts env k = (.ok v, log))
    (hkey : processKey opts env key = (.error e, loge)) :
    parseAndValidate (pre ++ key :: post) opts env = .error e := by
  unfold parseAndValidate parseAndValidateWithLog
  rw [if_neg (by simp [henv, hnull])]
  exact runKeys_error_of_prefix_ok opts env key post e loge hkey pre hpre

/-- Instantiation of C7: with keys `[A, B, C]` where `A` succeeds and both
`B` and `C` would fail as missing, the reported error names `B` only. -/
theorem c7_witness :
    parseAndValidate ["A", "B", "C"] ({} : Options)
        (JSValue.obj [("A", JSValue.str "x")]) =
      .error "Missing environment variable: B" := by
  refine c7_first_failure_wins ({} : Options)
    (JSValue.obj [("A", JSValue.str "x")]) ["A"] "B" ["C"]
    "Missing environment variable: B" [] rfl rfl ?_ rfl
  intro k hk
  have : k = "A" := by simpa using hk
  subst this
  exact ⟨JSValue.str "x", [], rfl⟩

/-- Helper for C8: a key that succeeds while a validator is installed logs
exactly one invocation, at the key and its converted value. -/
theorem processKey_log_of_ok (opts : Options) (env : JSValue) (k : String)
    (f : String → JSValue → Except Thrown Unit) (hf : opts.validator = some f)
    (v : JSValue) (log : List (String × JSValue))
    (h : processKey opts env k = (.ok v, log)) : log = [(k, v)] := by
  simp only [processKey] at h
  split at h
  · simp at h
  · split at h
    · simp at h
    · split at h
      · simp at h
      · rw [hf] at h
        simp only [runValidator] at h
        split at h
        · rw [Prod.mk.injEq] at h
          obtain ⟨h1, h2⟩ := h
          rw [← h2, Except.ok.inj h1]
        · simp at h
        · simp at h

/-- Helper for C8: on a successful run with a validator installed, the
invocation log coincides with the produced record — one invocation per key,
in order, at the converted value. -/
theorem runKeys_log_eq_record (opts : Options) (env : JSValue)
    (f : String → JSValue → Except Thrown Unit) (hf : opts.validator = some f) :
    ∀ (keys : List String) (r log : List (String × JSValue)),
      runKeys opts env keys = (.ok r, log) → log = r := by
  intro keys
  induction keys with
  | nil =>
    intro r log h
    simp only [runKeys] at h
    rw [Prod.mk.injEq] at h
    obtain ⟨h1, h2⟩ := h
    rw [← h2]
    exact Except.ok.inj h1
  | cons k rest ih =>
    intro r log h
    unfold runKeys at h
    rcases hk : processKey opts env k with ⟨res1, log1⟩
    rw [hk] at h
    cases res1 with
    | error e => simp at h
    | ok v =>
      rcases hr : runKeys opts env rest with ⟨res2, log2⟩
      rw [hr] at h
      cases res2 with
      | error e => simp at h
      | ok r' =>
        rw [Prod.mk.injEq] at h
        obtain ⟨h1, h2⟩ := h
        have hlog1 : log1 = [(k, v)] := processKey_log_of_ok opts env k f hf v log1 hk
        have hlog2 : log2 = r' := ih r' log2 hr
        rw [← h2, hlog1, hlog2, ← Except.ok.inj h1]
        rfl

/-- C8: the validator contract.  (1) When the per-key pipeline reaches type
conversion successfully, the key's outcome is exactly the validator step
applied at `(key, convertedValue)`.  (2) A validator that returns cleanly
leaves the converted value in place, logging the single invocation.  (3) A
thrown `Error` propagates with its message verbatim.  (4) Any other thrown
value is wrapped in `Validation failed for {KEY}: ...`.  (5) Globally, a
successful run with a validator installed logs exactly one invocation per
key, at the key's converted value, in declaration order. -/
theorem c8_validator_contract (f : String → JSValue → Except Thrown Unit)
    (key : String) (v : JSValue) :
    (∀ (opts : Options) (env : JSValue),
      opts.validator = some f →
      ¬(isUndefined (getDefault opts.defaults key) = true ∧
        keyInDefaults opts.defaults key = true) →
      ¬((isUndefined (getField env key) = true ∨
          isEmptyValue (getField env key) = true) ∧
        isUndefined (getDefault opts.defaults key) = true) →
      convertValue (opts.delimiter.getD ",")
        ((opts.arrayTypes.getD []).lookup key) key
        (getDefault opts.defaults key)
        (if isEmptyValue (getField env key) = true ∨
            isUndefined (getField env key) = true
          then getDefault opts.defaults key else getField env key) = .ok v →
      processKey opts env key = runValidator (some f) key v) ∧
    (f key v = .ok () →
      runValidator (some f) key v = (.ok v, [(key, v)])) ∧
    (∀ msg, f key v = .error (.err msg) →
      runValidator (some f) key v = (.error msg, [(key, v)])) ∧
    (∀ w, f key v = .error (.other w) →
      runValidator (some f) key v =
        (.error s!"Validation failed for {key}: {jsToString w}", [(key, v)])) ∧
    (∀ (opts : Options) (env : JSValue) (keys : List String)
        (r log : List (String × JSValue)),
      opts.validator = some f →
      parseAndValidateWithLog keys opts env = (.ok r, log) → log = r) := by
  refine ⟨fun opts env hf h1 h2 hc => ?_, fun h => ?_, fun msg h => ?_,
    fun w h => ?_, fun opts env keys r log hf h => ?_⟩
  · simp only [processKey]
    rw [if_neg h1, if_neg h2, hc, hf]
  · simp [runValidator, h]
  · simp [runValidator, h]
  · simp [runValidator, h]
  · unfold parseAndValidateWithLog at h
    split at h
    · simp at h
    · exact runKeys_log_eq_record opts env f hf keys r log h

/-- Instantiation of C8: a validator that rejects `PORT` with an `Error`
propagates its message verbatim after one logged invocation at the
converted value; one that throws a non-`Error` string is wrapped; the whole
run surfaces the validator failure. -/
theorem c8_witness :
    runValidator (some fun k (_ : JSValue) =>
        if k = "PORT" then Except.error (Thrown.err "Port must be between 1024 and 65535")
        else Except.ok ()) "PORT" (JSValue.str "80") =
      (.error "Port must be between 1024 and 65535", [("PORT", JSValue.str "80")]) ∧
    runValidator (some fun _ (_ : JSValue) =>
        Except.error (Thrown.other (JSValue.str "boom"))) "K" (JSValue.str "v") =
      (.error "Validation failed for K: boom", [("K", JSValue.str "v")]) := by
  constructor
  · exact ((c8_validator_contract (fun k (_ : JSValue) =>
      if k = "PORT" then Except.error (Thrown.err "Port must be between 1024 and 65535")
      else Except.ok ()) "PORT" (JSValue.str "80")).2.2.1
      "Port must be between 1024 and 65535" (by rfl))
  · exact ((c8_validator_contract (fun _ (_ : JSValue) =>
      Except.error (Thrown.other (JSValue.str "boom"))) "K" (JSValue.str "v")).2.2.2.1
      (JSValue.str "boom") rfl).trans rfl

/-- Helper for C2: the shape-check loop skips over a prefix of default
properties that all pass (present with a successful recursive check, or
absent with an `undefined` default). -/
theorem validateShapeFields_append (v : JSValue) (key : String)
    (path : List String) :
    ∀ (pre fs : List (String × JSValue)),
      (∀ q qv, (q, qv) ∈ pre → fieldOk v key path q qv) →
      validateShapeFields (pre ++ fs) v key path =
        validateShapeFields fs v key path := by
  intro pre
  induction pre with
  | nil => intro fs _; rfl
  | cons f pre ih =>
    intro fs h
    obtain ⟨q, qv⟩ := f
    have hq := h q qv (List.mem_cons_self _ _)
    have hrest : ∀ q' qv', (q', qv') ∈ pre → fieldOk v key path q' qv' :=
      fun q' qv' hm => h q' qv' (List.mem_cons_of_mem _ hm)
    unfold fieldOk at hq
    by_cases hp : hasProp v q = true
    · rw [if_pos hp] at hq
      simp only [List.cons_append, validateShapeFields]
      rw [if_neg (by simp [hp]), if_pos hp, hq]
      exact ih fs hrest
    · rw [if_neg hp] at hq
      have hp' : hasProp v q = false := by
        cases hpv : hasProp v q
        · rfl
        · exact absurd hpv hp
      simp only [List.cons_append, validateShapeFields]
      rw [if_neg (by simp [hq, isUndefined_on_undefined]), if_neg hp]
      exact ih fs hrest

/-- Helper for C2: the shape-check loop reads the checked value only through
the default's own property names, so two values that agree on those
properties (in presence and content) validate identically. -/
theorem validateShapeFields_congr (key : String) (path : List String) :
    ∀ (fs : List (String × JSValue)) (v v' : JSValue),
      (∀ q qv, (q, qv) ∈ fs →
        hasProp v q = hasProp v' q ∧ getField v q = getField v' q) →
      validateShapeFields fs v key path = validateShapeFields fs v' key path := by
  intro fs
  induction fs with
  | nil => intro v v' _; simp only [validateShapeFields]
  | cons f rest ih =>
    intro v v' h
    obtain ⟨q, qv⟩ := f
    have hhead := h q qv (List.mem_cons_self _ _)
    have hrest := ih v v' fun q' qv' hm => h q' qv' (List.mem_cons_of_mem _ hm)
    simp only [validateShapeFields]
    rw [hhead.1, hhead.2, hrest]

/-- C2 counterexample: the claim says the check fails with `MissingProperty`
for *every* default property absent from the parsed value, but the source
guards the failure with `defaultObj[prop] !== undefined`
(src/index.ts line 255): for the default `{a: undefined}` and the parsed
value `{}`, the property `a` is present in the default and absent from the
parsed value, yet the check succeeds. -/
theorem c2_counterexample :
    validateObjectShape (JSValue.obj []) (JSValue.obj [("a", JSValue.undefined)])
      "K" [] = .ok () ∧
    hasProp (JSValue.obj [("a", JSValue.undefined)]) "a" = true ∧
    hasProp (JSValue.obj []) "a" = false := by
  refine ⟨?_, rfl, rfl⟩
  simp [validateObjectShape, validateShapeFields, ownFields, hasProp,
    jsTypeof, isNull, isUndefined]

/-- C2 (amended): the recursive object-shape check fails with the
`Invalid type` message whenever the two `typeof` tags differ; when both
sides are non-null objects it walks the default's own properties in order
and (i) fails with the `Missing required property` message at the first
property that is absent from the parsed value *and has a non-undefined
default* — an absent property whose default is `undefined` imposes no
requirement — after every earlier property passes, (ii) recurses with the
extended dotted path on a property present in both, propagating its error,
and (iii) never consults properties of the parsed value outside the
default's own property names, so extra properties are ignored (minimum
required shape, not an exact schema). -/
theorem c2_shape_check_semantics :
    (∀ (v d : JSValue) (key : String) (path : List String),
      jsTypeof v ≠ jsTypeof d →
      validateObjectShape v d key path =
        .error s!"Invalid type for {pathStr key path}: expected {jsTypeof d}, got {jsTypeof v}") ∧
    (∀ (v d : JSValue) (key : String) (path : List String)
        (pre : List (String × JSValue)) (prop : String) (dv : JSValue)
        (rest : List (String × JSValue)),
      jsTypeof v = jsTypeof d → jsTypeof v = "object" → isNull v = false →
      ownFields d = pre ++ (prop, dv) :: rest →
      (∀ q qv, (q, qv) ∈ pre → fieldOk v key path q qv) →
      hasProp v prop = false → isUndefined dv = false →
      validateObjectShape v d key path =
        .error s!"Missing required property {pathStr key path}.{prop}") ∧
    (∀ (v d : JSValue) (key : String) (path : List String)
        (pre : List (String × JSValue)) (prop : String) (dv : JSValue)
        (rest : List (String × JSValue)) (e : String),
      jsTypeof v = jsTypeof d → jsTypeof v = "object" → isNull v = false →
      ownFields d = pre ++ (prop, dv) :: rest →
      (∀ q qv, (q, qv) ∈ pre → fieldOk v key path q qv) →
      hasProp v prop = true →
      validateObjectShape (getField v prop) dv key (path ++ [prop]) = .error e →
      validateObjectShape v d key path = .error e) ∧
    (∀ (v v' d : JSValue) (key : String) (path : List String),
      jsTypeof v = "object" → jsTypeof v' = "object" →
      isNull v = false → isNull v' = false →
      (∀ q qv, (q, qv) ∈ ownFields d →
        hasProp v q = hasProp v' q ∧ getField v q = getField v' q) →
      validateObjectShape v d key path = validateObjectShape v' d key path) := by
  refine ⟨fun v d key path h => ?_,
    fun v d key path pre prop dv rest heq hobj hnull hown hpre habs hdv => ?_,
    fun v d key path pre prop dv rest e heq hobj hnull hown hpre hpres hrec => ?_,
    fun v v' d key path hv hv' hn hn' h => ?_⟩
  · simp only [validateObjectShape]
    rw [if_pos h]
  · simp only [validateObjectShape]
    rw [if_neg (by simp [heq]), if_pos ⟨hobj, hnull⟩, hown,
      validateShapeFields_append v key path pre _ hpre]
    simp only [validateShapeFields]
    rw [if_pos ⟨habs, hdv⟩]
  · simp only [validateObjectShape]
    rw [if_neg (by simp [heq]), if_pos ⟨hobj, hnull⟩, hown,
      validateShapeFields_append v key path pre _ hpre]
    simp only [validateShapeFields]
    rw [if_neg (by simp [hpres]), if_pos hpres, hrec]
  · simp only [validateObjectShape, hv, hv', hn, hn']
    by_cases hc : ("object" : String) ≠ jsTypeof d
    · rw [if_pos hc, if_pos hc]
    · rw [if_neg hc, if_neg hc]
      have hfields := validateShapeFields_congr key path (ownFields d) v v' h
      simp [hfields]

/-- Instantiation of the amended C2: the default `{a: "x"}` against the
parsed value `{}` fails with the exact missing-property message (the
default value `"x"` is not `undefined`, so the guard does not fire). -/
theorem c2_witness :
    validateObjectShape (JSValue.obj []) (JSValue.obj [("a", JSValue.str "x")])
      "K" [] = .error "Missing required property K.a" := by
  have h := (c2_shape_check_semantics.2.1) (JSValue.obj [])
    (JSValue.obj [("a", JSValue.str "x")]) "K" [] [] "a" (JSValue.str "x") []
    rfl rfl rfl rfl (by intro q qv hm; exact absurd hm (List.not_mem_nil _))
    rfl rfl
  exact h.trans rfl

end TinyEnv
